import Mathlib

/-!
Shallow embedding of src/lib/reporter.js (SpecReporter) and proofs about it.

JavaScript is modelled as follows:
* object properties that may be absent are Option values;
* JS string interpolation of a possibly-undefined value coerces undefined to
  the literal text "undefined" (function interp below);
* JS truthiness of a possibly-undefined string: undefined and the empty
  string are falsy (function jsTruthy below);
* plain JS objects used as string-keyed dictionaries are association lists
  preserving insertion order (mget / mupd below), matching for-in iteration
  order over string keys;
* a handler or text builder that would throw a TypeError (property access on
  undefined) returns none;
* the external collaborators (baseReporter with its stats, color theme and
  symbols, and the humanize-duration formatter) are abstract data carried in
  the Base structure and never mutated.
-/

namespace SpecReporter

/-- Lookup in a string-keyed JS object modelled as an association list. -/
def mget {α : Type} (m : List (String × α)) (k : String) : Option α :=
  match m with
  | [] => none
  | (k2, v) :: rest => if k2 = k then some v else mget rest k

/-- Property assignment in a string-keyed JS object: replace the binding if
the key is present, otherwise append it. -/
def mupd {α : Type} (m : List (String × α)) (k : String) (v : α) :
    List (String × α) :=
  match m with
  | [] => [(k, v)]
  | (k2, v2) :: rest =>
    if k2 = k then (k, v) :: rest else (k2, v2) :: mupd rest k v

theorem mget_mupd_self {α : Type} (m : List (String × α)) (k : String) (v : α) :
    mget (mupd m k v) k = some v := by
  induction m with
  | nil => simp [mget, mupd]
  | cons p rest ih =>
    obtain ⟨k2, v2⟩ := p
    by_cases h : k2 = k
    · simp [mget, mupd, h]
    · simp [mget, mupd, h, ih]

theorem mget_mupd_ne {α : Type} (m : List (String × α)) (k k2 : String) (v : α)
    (h : k2 ≠ k) : mget (mupd m k v) k2 = mget m k2 := by
  induction m with
  | nil => simp [mget, mupd, Ne.symm h]
  | cons p rest ih =>
    obtain ⟨k3, v3⟩ := p
    by_cases h3 : k3 = k
    · subst h3
      simp [mget, mupd, Ne.symm h]
    · simp only [mupd, if_neg h3]
      by_cases h4 : k3 = k2
      · simp [mget, h4]
      · simp [mget, h4, ih]

/-- JS truthiness of a possibly-undefined string value: undefined and the
empty string are falsy. -/
def jsTruthy (o : Option String) : Bool :=
  match o with
  | some s => s ≠ ""
  | none => false

/-- JS logical-or on possibly-undefined string values: a or-else b returns a
when a is truthy, otherwise b. -/
def jsOr (a b : Option String) : Option String :=
  if jsTruthy a then a else b

/-- JS string coercion used by template literals and string concatenation:
undefined becomes the literal text "undefined". -/
def interp (o : Option String) : String :=
  match o with
  | some s => s
  | none => "undefined"

/-- Models the JS idiom (x or-else empty string): a falsy value contributes
an empty string. -/
def jsOrEmpty (o : Option String) : String :=
  if jsTruthy o then interp o else ""

/-- Character-list test that the first list starts with the second. -/
def listStartsWith : List Char → List Char → Bool
  | _, [] => true
  | [], _ :: _ => false
  | c :: cs, p :: ps => c == p && listStartsWith cs ps

/-- Character-list test that the pattern occurs somewhere in the text. -/
def listContains : List Char → List Char → Bool
  | [], pat => pat.isEmpty
  | c :: cs, pat => listStartsWith (c :: cs) pat || listContains cs pat

/-- Models JS str.indexOf(pat) being exactly 0, i.e. a prefix test. -/
def strStartsWith (s pat : String) : Bool :=
  listStartsWith s.data pat.data

/-- Models JS str.indexOf(pat) being non-negative, i.e. a substring test. -/
def strContains (s pat : String) : Bool :=
  listContains s.data pat.data

/-- Models JS String.prototype.trim: strips whitespace from both ends. -/
def jsTrim (s : String) : String :=
  String.mk (((s.data.dropWhile Char.isWhitespace).reverse.dropWhile
    Char.isWhitespace).reverse)

/-- Replace the first occurrence of a non-empty pattern in a character
list. -/
def replaceFirstList (pat repl : List Char) : List Char → List Char
  | [] => []
  | c :: cs =>
    if listStartsWith (c :: cs) pat then repl ++ (c :: cs).drop pat.length
    else c :: replaceFirstList pat repl cs

/-- JS String.prototype.replace with a string pattern replaces only the first
occurrence of the pattern (the patterns used by the reporter are non-empty
literals). -/
def replaceFirst (s pat repl : String) : String :=
  String.mk (replaceFirstList pat.data repl.data s.data)

/-- Splits a character list at every occurrence of the given character. -/
def splitCharList (c0 : Char) : List Char → List (List Char)
  | [] => [[]]
  | c :: cs =>
    match splitCharList c0 cs with
    | [] => [[c]]
    | x :: xs => if c == c0 then [] :: x :: xs else (c :: x) :: xs

/-- Models JS str.split on a single-character separator regex. -/
def strSplitOnChar (c0 : Char) (s : String) : List String :=
  (splitCharList c0 s.data).map String.mk

/-- Capability record consumed by getBrowserCombo; every field is optional. -/
structure Caps where
  deviceName : Option String
  browserName : Option String
  browser : Option String
  version : Option String
  platformVersion : Option String
  browser_version : Option String
  os : Option String
  os_version : Option String
  platform : Option String
  platformName : Option String
  app : Option String

/-- An all-absent capability record, the base for literals. -/
def Caps.empty : Caps :=
  ⟨none, none, none, none, none, none, none, none, none, none, none⟩

/-- Embeds getBrowserCombo (reporter.js lines 165-190).  Note that the mobile
branch interpolates device, platform and version with JS template-literal
coercion, so an undefined version appears as the text "undefined". -/
def getBrowserCombo (caps : Caps) (verbose : Bool) : String :=
  let device := caps.deviceName
  let browser := jsOr caps.browserName caps.browser
  let version := jsOr (jsOr caps.version caps.platformVersion) caps.browser_version
  let platform :=
    if jsTruthy caps.os then some (interp caps.os ++ " " ++ interp caps.os_version)
    else jsOr caps.platform caps.platformName
  if jsTruthy device then
    let program :=
      jsOr (some (replaceFirst (jsOrEmpty caps.app) "sauce-storage:" ""))
        caps.browserName
    let executing :=
      if jsTruthy program then "executing " ++ interp program else ""
    if verbose = false then
      interp device ++ " " ++ interp platform ++ " " ++ interp version
    else
      jsTrim (interp device ++ " on " ++ interp platform ++ " "
        ++ interp version ++ " " ++ executing)
  else
    if verbose = false then
      jsTrim (interp browser ++ " " ++ jsOrEmpty version ++ " "
        ++ jsOrEmpty platform)
    else
      interp browser
        ++ (if jsTruthy version then " (v" ++ interp version ++ ")" else "")
        ++ (if jsTruthy platform then " on " ++ interp platform else "")

/-- A test record inside the stats collaborator's reconstructed suite tree. -/
structure TestRec where
  title : String
  state : String

/-- A suite record inside the stats collaborator's reconstructed tree: title
and tests keyed by test uid in insertion order. -/
structure SuiteRec where
  title : String
  tests : List (String × TestRec)

/-- One spec entry of stats.runners(cid).specs: the reconstructed suite tree
and the aggregate duration (the source field is named underscore-duration). -/
structure SpecStats where
  suites : List (String × SuiteRec)
  duration : Nat

/-- Per-worker record of the external stats collaborator. configHost models
results.config.host. -/
structure RunnerStats where
  capabilities : Caps
  sessionID : String
  specs : List (String × SpecStats)
  configHost : Option String

/-- One failure entry of stats.getFailures(). runnerKeys models the keys of
the failure's runner object; err is always present in source usage, with
message mandatory and stack optional. -/
structure Failure where
  cid : String
  runnerKeys : List String
  parent : Option String
  title : String
  errMessage : String
  errStack : Option String

/-- The external stats collaborator (this.baseReporter.stats). specHash
models stats.getSpecHash applied to a runner, keyed here by the runner cid. -/
structure Stats where
  runners : List (String × RunnerStats)
  failures : List Failure
  specHash : String → String

/-- The external baseReporter plus the humanize-duration formatter: the ok
symbol of its symbol table, its color function (category, text), and the
short-English humanizer applied to a millisecond duration with
DURATION_OPTIONS. All of these are read-only collaborators. -/
structure Base where
  stats : Stats
  symbolOk : String
  color : Option String → String → String
  humanize : Nat → String

/-- Per-worker result counters (reporter.js lines 45-49), with fields in the
insertion order of the source object literal. -/
structure Results where
  passing : Nat
  pending : Nat
  failing : Nat

/-- The runner payload fields the reporter reads: cid and specs. -/
structure RunnerInfo where
  cid : String
  specs : List String

/-- The suite payload fields the reporter reads: cid, uid and title. -/
structure SuiteInfo where
  cid : String
  uid : String
  title : String

/-- The test payload fields the reporter reads (state is assigned by the
realtime handlers before printing): cid and title. -/
structure TestInfo where
  cid : String
  title : String

/-- The singleton realtime context (this.context, initialized to an empty
object; absent fields are none, and the absent headerPrinted field reads as
falsy, modelled as false). -/
structure Context where
  runner : Option RunnerInfo
  suite : Option SuiteInfo
  headerPrinted : Bool
  cid : Option String
  preface : Option String

/-- The empty context object of the constructor. -/
def Context.empty : Context := ⟨none, none, false, none, none⟩

/-- The configuration object handed to the constructor; only maxInstances is
read. -/
structure JsConfig where
  maxInstances : Option Int

/-- The mutable state of a SpecReporter instance together with its read-only
baseReporter. indents values are Int because the JS counter can be driven
negative by unbalanced suite-end events. -/
structure ReporterState where
  baseReporter : Base
  errorCount : Nat
  indents : List (String × Int)
  suiteIndents : List (String × List (String × Int))
  specs : List (String × List String)
  results : List (String × Results)
  context : Context
  realtime : Bool

/-- Embeds the realtime flag computed at construction (reporter.js line 39):
config is defined and config.maxInstances strictly equals the number 1. -/
def mkRealtime (config : Option JsConfig) : Bool :=
  match config with
  | none => false
  | some c => c.maxInstances == some 1

/-- The state built by the constructor (reporter.js lines 17-39). -/
def initState (base : Base) (config : Option JsConfig) : ReporterState :=
  { baseReporter := base
    errorCount := 0
    indents := []
    suiteIndents := []
    specs := []
    results := []
    context := Context.empty
    realtime := mkRealtime config }

/-- Embeds JS Array(n).join(sep): n-1 copies of sep for positive n, empty for
n = 0, and a RangeError (none) for a negative array length. -/
def jsArrayJoin (n : Int) (sep : String) : Option String :=
  if n < 0 then none
  else some (String.join (List.replicate (n.toNat - 1) sep))

/-- The body of the indent method on a looked-up depth value. An absent
binding gives Array(undefined), a one-element array whose join is empty. -/
def indentOf (d : Option Int) : Option String :=
  match d with
  | none => some ""
  | some n => if n = 0 then some "" else jsArrayJoin n "    "

/-- Embeds the indent method (reporter.js lines 120-123) reading
this.suiteIndents. A worker id with no suite-indent map at all makes the
inner property access throw (none). -/
def indent (suiteIndents : List (String × List (String × Int)))
    (cid uid : String) : Option String :=
  match mget suiteIndents cid with
  | none => none
  | some m => indentOf (mget m uid)

/-- Embeds getSymbol (reporter.js lines 125-143): returns the glyph and the
updated process-wide errorCount, which only the fail case increments
(post-increment, so the glyph uses the incremented value). -/
def getSymbol (base : Base) (errorCount : Nat) (state : String) :
    String × Nat :=
  if state = "pass" then (base.symbolOk, errorCount)
  else if state = "pending" then ("-", errorCount)
  else if state = "fail" then (toString (errorCount + 1) ++ ")", errorCount + 1)
  else ("?", errorCount)

/-- Embeds getColor (reporter.js lines 145-163); null for an unknown state is
none. -/
def getColor (state : String) : Option String :=
  if state = "pass" ∨ state = "passing" then some "green"
  else if state = "pending" then some "pending"
  else if state = "fail" ∨ state = "failing" then some "fail"
  else none

/-- The field list the for-in loop of getSummary walks over, in the insertion
order of the results object literal. -/
def resultsList (r : Results) : List (String × Nat) :=
  [("passing", r.passing), ("pending", r.pending), ("failing", r.failing)]

/-- The loop of getSummary (reporter.js lines 273-297): the flag argument is
the displayedDuration accumulator. -/
def getSummaryAux (base : Base) (preface : String) (duration : Nat) :
    List (String × Nat) → Bool → String
  | [], _ => ""
  | (state, testCount) :: rest, displayedDuration =>
    if testCount = 0 then getSummaryAux base preface duration rest displayedDuration
    else
      let testDuration :=
        if displayedDuration then ""
        else " (" ++ base.humanize duration ++ ")"
      preface ++ " " ++ base.color (getColor state) (toString testCount)
        ++ " " ++ base.color (getColor state) state ++ testDuration ++ "\n"
        ++ getSummaryAux base preface duration rest true

/-- Embeds getSummary (reporter.js lines 269-300). -/
def getSummary (base : Base) (states : Results) (duration : Nat)
    (preface : String) : String :=
  getSummaryAux base preface duration (resultsList states) false

/-- Behaviour of getSummary when this.results(cid) is absent: the for-in loop
over undefined runs zero iterations, so the output is empty. -/
def getSummaryOf (base : Base) (states : Option Results) (duration : Nat)
    (preface : String) : String :=
  match states with
  | none => ""
  | some r => getSummary base r duration preface

/-- The forEach body of getFailureList with its running index. -/
def getFailureListAux (base : Base) (preface : String) :
    Nat → List Failure → String
  | _, [] => ""
  | i, f :: rest =>
    let title :=
      match f.parent with
      | some p => p ++ " " ++ f.title
      | none => f.title
    jsTrim preface ++ "\n"
      ++ preface ++ " "
      ++ base.color (some "error title") (toString (i + 1) ++ ") " ++ title ++ ":")
      ++ "\n"
      ++ preface ++ " " ++ base.color (some "error message") f.errMessage ++ "\n"
      ++ (if jsTruthy f.errStack then
            String.intercalate "\n"
              ((strSplitOnChar (Char.ofNat 10) (interp f.errStack)).map
                (fun l => preface ++ " " ++ base.color (some "error stack") l))
              ++ "\n"
          else
            preface ++ " " ++ base.color (some "error stack") "no stack available"
              ++ "\n")
      ++ getFailureListAux base preface (i + 1) rest

/-- Embeds getFailureList (reporter.js lines 302-319). -/
def getFailureList (base : Base) (failures : List Failure) (preface : String) :
    String :=
  getFailureListAux base preface 0 failures

/-- Embeds getJobLink (reporter.js lines 321-334); the indexOf test for a
non-negative position is the substring test. -/
def getJobLink (results : RunnerStats) (preface : String) : String :=
  if jsTruthy results.configHost = false then ""
  else if strContains (interp results.configHost) "saucelabs.com" then
    jsTrim preface ++ "\n"
      ++ preface ++ " Check out job at https://saucelabs.com/tests/"
      ++ results.sessionID ++ "\n"
  else ""

/-- The 66-dash horizontal rule line of the worker header
(reporter.js line 344), built from its length to match the source text. -/
def dashRule : String := String.mk (List.replicate 66 (Char.ofNat 45))

/-- The 66-equals banner line of the cross-worker summary
(reporter.js line 390), built from its length to match the source text. -/
def eqBanner : String := String.mk (List.replicate 66 (Char.ofNat 61))

/-- Embeds getHeader (reporter.js lines 336-349). The context cid is assigned
first; if the stats collaborator has no record for it the capabilities access
throws (none). On success, the returned state carries the mutated context
(cid and preface). An absent this.specs entry interpolates as "undefined";
a present one is a JS array, which interpolates comma-separated. -/
def getHeader (s : ReporterState) (runner : RunnerInfo) :
    Option (String × ReporterState) :=
  let s1 := { s with context := { s.context with cid := some runner.cid } }
  match mget s1.baseReporter.stats.runners runner.cid with
  | none => none
  | some results =>
    let preface :=
      "[" ++ getBrowserCombo results.capabilities false ++ " #" ++ runner.cid ++ "]"
    let s2 := { s1 with context := { s1.context with preface := some preface } }
    let combo := getBrowserCombo results.capabilities true
    let specsStr :=
      match mget s2.specs runner.cid with
      | none => "undefined"
      | some l => String.intercalate "," l
    some (dashRule ++ "\n"
      ++ preface ++ " Session ID: " ++ results.sessionID ++ "\n"
      ++ preface ++ " Spec: " ++ specsStr ++ "\n"
      ++ preface ++ " Running: " ++ combo, s2)

/-- Embeds getSuiteHeader (reporter.js lines 227-233): indentation is looked
up under this.context.cid, whose undefined value makes the lookup throw. -/
def getSuiteHeader (s : ReporterState) (suite : SuiteInfo) : Option String :=
  match s.context.cid with
  | none => none
  | some ccid =>
    (indent s.suiteIndents ccid suite.uid).map fun ind =>
      interp s.context.preface ++ " \n" ++ interp s.context.preface ++ " "
        ++ ind ++ suite.title

/-- Embeds getTestResult (reporter.js lines 239-246): builds one test line
and returns the state updated by getSymbol's error-counter side effect. -/
def getTestResult (s : ReporterState) (cid uid : String)
    (testState testTitle : String) (preface : String) :
    Option (String × ReporterState) :=
  (indent s.suiteIndents cid uid).map fun ind =>
    let sym := getSymbol s.baseReporter s.errorCount testState
    (preface ++ "   " ++ ind
      ++ s.baseReporter.color (getColor testState) sym.1
      ++ " " ++ testTitle,
     { s with errorCount := sym.2 })

/-- The inner for-in loop of getResultList over one suite's tests: tests with
an empty state are skipped, the others render one line each, threading the
error counter. -/
def getTestLines (s : ReporterState) (cid uid preface : String) :
    List (String × TestRec) → Option (String × ReporterState)
  | [] => some ("", s)
  | (_, test) :: rest =>
    if test.state = "" then getTestLines s cid uid preface rest
    else
      (getTestResult s cid uid test.state test.title preface).bind fun p =>
        (getTestLines p.2 cid uid preface rest).map fun q =>
          (p.1 ++ "\n" ++ q.1, q.2)

/-- Embeds getResultList (reporter.js lines 192-225). A suite uid starting
with the quoted before-all marker hits the continue at the top of the loop,
skipping the whole iteration: its header line, its tests, and its trailing
preface line. The later not-equal-zero guard on the header is therefore
always true when reached. -/
def getResultList (s : ReporterState) (cid preface : String) :
    List (String × SuiteRec) → Option (String × ReporterState)
  | [] => some ("", s)
  | (specUid, spec) :: rest =>
    if strStartsWith specUid "\"before all\"" then
      getResultList s cid preface rest
    else
      match indent s.suiteIndents cid specUid with
      | none => none
      | some ind =>
        (getTestLines s cid specUid preface spec.tests).bind fun p =>
          (getResultList p.2 cid preface rest).map fun q =>
            (preface ++ " " ++ ind ++ spec.title ++ "\n" ++ p.1
              ++ jsTrim preface ++ "\n" ++ q.1, q.2)

/-- Embeds getSuiteResult (reporter.js lines 356-383): looks up the worker in
the external stats, returns the empty string when no suites were executed,
otherwise resets the error counter to zero and assembles header, result
list, summary, failure list and job link. The returned state carries the
context mutated by getHeader and the error counter left by the result
list. -/
def getSuiteResult (s : ReporterState) (runner : RunnerInfo) :
    Option (String × ReporterState) :=
  let cid := runner.cid
  match mget s.baseReporter.stats.runners cid with
  | none => none
  | some results =>
    let preface :=
      "[" ++ getBrowserCombo results.capabilities false ++ " #" ++ cid ++ "]"
    match mget results.specs (s.baseReporter.stats.specHash cid) with
    | none => none
    | some spec =>
      let failures :=
        s.baseReporter.stats.failures.filter
          (fun f => f.cid == cid || f.runnerKeys.contains cid)
      if spec.suites.isEmpty then some ("", s)
      else
        let s1 := { s with errorCount := 0 }
        (getHeader s1 runner).bind fun hp =>
          (getResultList hp.2 cid preface spec.suites).bind fun rp =>
            some (hp.1 ++ "\n" ++ preface ++ "\n" ++ rp.1 ++ preface ++ "\n"
              ++ getSummaryOf rp.2.baseReporter (mget rp.2.results cid)
                  spec.duration preface
              ++ getFailureList rp.2.baseReporter failures preface
              ++ getJobLink results preface
              ++ preface ++ "\n", rp.2)

/-- Embeds getSuitesSummary (reporter.js lines 389-393). -/
def getSuitesSummary (specCount : Nat) : String :=
  "\n\n" ++ eqBanner ++ "\n"
    ++ "Number of specs: " ++ toString specCount

/-- Embeds printSuitesSummary (reporter.js lines 395-408) as the text it
prints: none when the early return for exactly one runner fires, otherwise
the cross-worker banner (the epilogue call is external output). specCount is
the number of keys of stats.runners. -/
def printSuitesSummary (s : ReporterState) : Option String :=
  let specCount := s.baseReporter.stats.runners.length
  if specCount = 1 then none
  else some (getSuitesSummary specCount)

/-- The lifecycle events the reporter subscribes to (reporter.js lines
41-117), carrying the payload fields the handlers read. The terminal
constructor is the payload-free end event. -/
inductive Event where
  | runnerStart (runner : RunnerInfo)
  | suiteStart (suite : SuiteInfo)
  | testPending (t : TestInfo)
  | testPass (t : TestInfo)
  | testFail (t : TestInfo)
  | suiteEnd (suite : SuiteInfo)
  | runnerEnd (runner : RunnerInfo)
  | terminal

/-- The realtime tail of the suite:start handler (reporter.js lines 58-65):
record the active suite, print the worker header once per runner, then print
the suite header. Text goes to the console, so only the state effects and
the crash conditions are kept: printHeader sets headerPrinted and applies
getHeader's context mutations, and a throw inside either builder is none. -/
def suiteStartRealtime (s : ReporterState) (suite : SuiteInfo) :
    Option ReporterState :=
  let s2 := { s with context := { s.context with suite := some suite } }
  (if s2.context.headerPrinted then some s2
   else
     match s2.context.runner with
     | none => none
     | some r =>
       let s3 := { s2 with context := { s2.context with headerPrinted := true } }
       (getHeader s3 r).map (fun p => p.2)).bind
    fun s4 => (getSuiteHeader s4 suite).map fun _ => s4

/-- The realtime tail of the three test handlers (reporter.js lines 70-73,
78-81, 86-89): printTestResult reads the active suite (throwing when it is
undefined) and builds the line via getTestResult, whose getSymbol call
updates the error counter on a fail state. -/
def testRealtime (s : ReporterState) (testState : String) (t : TestInfo) :
    Option ReporterState :=
  match s.context.suite with
  | none => none
  | some su =>
    (getTestResult s su.cid su.uid testState t.title
      (interp s.context.preface)).map fun p => p.2

/-- One increment of this.results(cid) for a test event; an absent record
makes the property access throw (none). -/
def bumpResults (s : ReporterState) (cid : String) (f : Results → Results) :
    Option ReporterState :=
  match mget s.results cid with
  | none => none
  | some r => some { s with results := mupd s.results cid (f r) }

/-- One step of the event dispatcher: the six lifecycle handlers plus
runner:end and end (reporter.js lines 41-117). Only state effects are kept;
printed text is rebuilt by the corresponding get functions. A handler that
would throw yields none.

Unreachable JS NaN cases are modelled as none: suite:start with the worker's
indents or suiteIndents entry absent, and suite:end with the indents entry
absent, would store NaN into a counter; from the constructor state both
entries are created together by runner:start, so these states never occur in
a run of the embedded reporter. -/
def step (s : ReporterState) (e : Event) : Option ReporterState :=
  match e with
  | .runnerStart r =>
    let s1 := { s with
      suiteIndents := mupd s.suiteIndents r.cid []
      indents := mupd s.indents r.cid 0
      specs := mupd s.specs r.cid r.specs
      results := mupd s.results r.cid ⟨0, 0, 0⟩ }
    some (if s1.realtime then
      { s1 with context :=
        { s1.context with runner := some r, headerPrinted := false } }
    else s1)
  | .suiteStart su =>
    match mget s.suiteIndents su.cid, mget s.indents su.cid with
    | some m, some d =>
      let nd := d + 1
      let s1 := { s with
        indents := mupd s.indents su.cid nd
        suiteIndents := mupd s.suiteIndents su.cid (mupd m su.uid nd) }
      if s1.realtime then suiteStartRealtime s1 su else some s1
    | _, _ => none
  | .testPending t =>
    (bumpResults s t.cid fun r => { r with pending := r.pending + 1 }).bind
      fun s1 => if s1.realtime then testRealtime s1 "pending" t else some s1
  | .testPass t =>
    (bumpResults s t.cid fun r => { r with passing := r.passing + 1 }).bind
      fun s1 => if s1.realtime then testRealtime s1 "pass" t else some s1
  | .testFail t =>
    (bumpResults s t.cid fun r => { r with failing := r.failing + 1 }).bind
      fun s1 => if s1.realtime then testRealtime s1 "fail" t else some s1
  | .suiteEnd su =>
    match mget s.indents su.cid with
    | none => none
    | some d =>
      let s1 := { s with indents := mupd s.indents su.cid (d - 1) }
      some (if s1.realtime then
        { s1 with context := { s1.context with suite := none } }
      else s1)
  | .runnerEnd r =>
    if s.realtime then
      match mget s.baseReporter.stats.runners r.cid with
      | none => none
      | some results =>
        match s.context.runner with
        | none => none
        | some ctxRunner =>
          match mget results.specs (s.baseReporter.stats.specHash ctxRunner.cid) with
          | none => none
          | some _ => some s
    else (getSuiteResult s r).map fun p => p.2
  | .terminal => some s

/-- Delivers a list of events in order, stopping at the first throw. -/
def run (s : ReporterState) : List Event → Option ReporterState
  | [] => some s
  | e :: es => (step s e).bind fun s2 => run s2 es

/-- Frame relation: the second state agrees with the first on every field
except possibly errorCount and context. -/
def SameCore (s s' : ReporterState) : Prop :=
  s'.baseReporter = s.baseReporter ∧ s'.indents = s.indents ∧
  s'.suiteIndents = s.suiteIndents ∧ s'.specs = s.specs ∧
  s'.results = s.results ∧ s'.realtime = s.realtime

theorem SameCore.refl (s : ReporterState) : SameCore s s :=
  ⟨rfl, rfl, rfl, rfl, rfl, rfl⟩

theorem SameCore.trans {s t u : ReporterState} (h1 : SameCore s t)
    (h2 : SameCore t u) : SameCore s u :=
  ⟨h2.1.trans h1.1, h2.2.1.trans h1.2.1, h2.2.2.1.trans h1.2.2.1,
   h2.2.2.2.1.trans h1.2.2.2.1, h2.2.2.2.2.1.trans h1.2.2.2.2.1,
   h2.2.2.2.2.2.trans h1.2.2.2.2.2⟩

theorem getHeader_frame (s : ReporterState) (r : RunnerInfo)
    (p : String × ReporterState) (h : getHeader s r = some p) :
    ∃ rs, mget s.baseReporter.stats.runners r.cid = some rs ∧
      SameCore s p.2 ∧ p.2.errorCount = s.errorCount ∧
      p.2.context = { s.context with
        cid := some r.cid,
        preface := some ("[" ++ getBrowserCombo rs.capabilities false
          ++ " #" ++ r.cid ++ "]") } := by
  simp only [getHeader] at h
  cases hm : mget s.baseReporter.stats.runners r.cid with
  | none => rw [hm] at h; exact absurd h (by simp)
  | some rs =>
    rw [hm] at h
    simp only [Option.some.injEq] at h
    subst h
    exact ⟨rs, rfl, ⟨rfl, rfl, rfl, rfl, rfl, rfl⟩, rfl, rfl⟩

theorem getTestResult_frame (s : ReporterState) (cid uid ts tt pf : String)
    (p : String × ReporterState) (h : getTestResult s cid uid ts tt pf = some p) :
    SameCore s p.2 ∧ p.2.context = s.context := by
  simp only [getTestResult] at h
  cases hi : indent s.suiteIndents cid uid with
  | none => rw [hi] at h; exact absurd h (by simp)
  | some ind =>
    rw [hi] at h
    simp only [Option.map_some', Option.some.injEq] at h
    subst h
    exact ⟨⟨rfl, rfl, rfl, rfl, rfl, rfl⟩, rfl⟩

theorem getTestLines_frame (cid uid pf : String) :
    ∀ (l : List (String × TestRec)) (s : ReporterState) (p : String × ReporterState),
    getTestLines s cid uid pf l = some p →
    SameCore s p.2 ∧ p.2.context = s.context
  | [], s, p, h => by
    simp only [getTestLines, Option.some.injEq] at h
    subst h
    exact ⟨SameCore.refl s, rfl⟩
  | (tuid, test) :: rest, s, p, h => by
    simp only [getTestLines] at h
    by_cases hst : test.state = ""
    · rw [if_pos hst] at h
      exact getTestLines_frame cid uid pf rest s p h
    · rw [if_neg hst] at h
      cases htr : getTestResult s cid uid test.state test.title pf with
      | none => rw [htr] at h; exact absurd h (by simp)
      | some q =>
        rw [htr] at h
        simp only [Option.some_bind'] at h
        cases hg : getTestLines q.2 cid uid pf rest with
        | none => rw [hg] at h; exact absurd h (by simp)
        | some q3 =>
          rw [hg] at h
          simp only [Option.map_some', Option.some.injEq] at h
          have h1 := getTestResult_frame s cid uid test.state test.title pf q htr
          have h2 := getTestLines_frame cid uid pf rest q.2 q3 hg
          subst h
          exact ⟨h1.1.trans h2.1, h2.2.trans h1.2⟩

theorem getResultList_frame (cid pf : String) :
    ∀ (l : List (String × SuiteRec)) (s : ReporterState) (p : String × ReporterState),
    getResultList s cid pf l = some p →
    SameCore s p.2 ∧ p.2.context = s.context
  | [], s, p, h => by
    simp only [getResultList, Option.some.injEq] at h
    subst h
    exact ⟨SameCore.refl s, rfl⟩
  | (specUid, spec) :: rest, s, p, h => by
    simp only [getResultList] at h
    by_cases hba : strStartsWith specUid "\"before all\"" = true
    · rw [if_pos hba] at h
      exact getResultList_frame cid pf rest s p h
    · rw [if_neg hba] at h
      cases hi : indent s.suiteIndents cid specUid with
      | none => rw [hi] at h; exact absurd h (by simp)
      | some ind =>
        rw [hi] at h
        cases htl : getTestLines s cid specUid pf spec.tests with
        | none => rw [htl] at h; exact absurd h (by simp)
        | some q =>
          rw [htl] at h
          simp only [Option.some_bind'] at h
          cases hr : getResultList q.2 cid pf rest with
          | none => rw [hr] at h; exact absurd h (by simp)
          | some q3 =>
            rw [hr] at h
            simp only [Option.map_some', Option.some.injEq] at h
            have h1 := getTestLines_frame cid specUid pf spec.tests s q htl
            have h2 := getResultList_frame cid pf rest q.2 q3 hr
            subst h
            exact ⟨h1.1.trans h2.1, h2.2.trans h1.2⟩

theorem getSuiteResult_frame (s : ReporterState) (r : RunnerInfo)
    (p : String × ReporterState) (h : getSuiteResult s r = some p) :
    SameCore s p.2 := by
  cases hm : mget s.baseReporter.stats.runners r.cid with
  | none => simp [getSuiteResult, hm] at h
  | some results =>
    cases hsp : mget results.specs (s.baseReporter.stats.specHash r.cid) with
    | none => simp [getSuiteResult, hm, hsp] at h
    | some spec =>
      by_cases he : spec.suites.isEmpty = true
      · simp only [getSuiteResult, hm, hsp, he, if_true, Option.some.injEq] at h
        subst h
        exact SameCore.refl s
      · simp only [getSuiteResult, hm, hsp, he, if_false, Bool.false_eq_true] at h
        cases hh : getHeader { s with errorCount := 0 } r with
        | none => rw [hh] at h; exact absurd h (by simp)
        | some hp =>
          rw [hh] at h
          simp only [Option.some_bind'] at h
          cases hrl : getResultList hp.2 r.cid
              ("[" ++ getBrowserCombo results.capabilities false ++ " #"
                ++ r.cid ++ "]") spec.suites with
          | none => rw [hrl] at h; exact absurd h (by simp)
          | some rp =>
            rw [hrl] at h
            simp only [Option.some_bind', Option.some.injEq] at h
            obtain ⟨rs, _, hc1, _, _⟩ :=
              getHeader_frame { s with errorCount := 0 } r hp hh
            have hc2 := getResultList_frame r.cid _ spec.suites hp.2 rp hrl
            have hc0 : SameCore s { s with errorCount := 0 } :=
              ⟨rfl, rfl, rfl, rfl, rfl, rfl⟩
            subst h
            exact (hc0.trans hc1).trans hc2.1

theorem suiteStartRealtime_frame (s : ReporterState) (su : SuiteInfo)
    (s' : ReporterState) (h : suiteStartRealtime s su = some s') :
    SameCore s s' ∧ s'.errorCount = s.errorCount := by
  simp only [suiteStartRealtime] at h
  rw [Option.bind_eq_some] at h
  obtain ⟨s4, h4, hsh⟩ := h
  rw [Option.map_eq_some'] at hsh
  obtain ⟨out, _, hs4⟩ := hsh
  cases hs4
  by_cases hp : s.context.headerPrinted = true
  · rw [if_pos hp, Option.some.injEq] at h4
    subst h4
    exact ⟨⟨rfl, rfl, rfl, rfl, rfl, rfl⟩, rfl⟩
  · rw [if_neg hp] at h4
    cases hr : s.context.runner with
    | none => rw [hr] at h4; exact absurd h4 (by simp)
    | some r =>
      rw [hr, Option.map_eq_some'] at h4
      obtain ⟨hp2, hh, he⟩ := h4
      obtain ⟨rs, _, hcore, hec, _⟩ := getHeader_frame _ r hp2 hh
      cases he
      exact ⟨SameCore.trans ⟨rfl, rfl, rfl, rfl, rfl, rfl⟩ hcore, hec⟩

theorem testRealtime_frame (s : ReporterState) (ts : String) (t : TestInfo)
    (s' : ReporterState) (h : testRealtime s ts t = some s') :
    SameCore s s' ∧ s'.context = s.context := by
  cases hsu : s.context.suite with
  | none => simp [testRealtime, hsu] at h
  | some su =>
    simp only [testRealtime, hsu, Option.map_eq_some'] at h
    obtain ⟨q, htr, hq⟩ := h
    cases hq
    exact getTestResult_frame s su.cid su.uid ts t.title _ q htr

theorem step_runnerStart_inv (s s' : ReporterState) (r : RunnerInfo)
    (h : step s (Event.runnerStart r) = some s') :
    s'.results = mupd s.results r.cid ⟨0, 0, 0⟩ ∧
    s'.indents = mupd s.indents r.cid 0 ∧
    s'.suiteIndents = mupd s.suiteIndents r.cid [] ∧
    s'.specs = mupd s.specs r.cid r.specs ∧
    s'.realtime = s.realtime ∧ s'.baseReporter = s.baseReporter ∧
    s'.errorCount = s.errorCount := by
  simp only [step, Option.some.injEq] at h
  subst h
  by_cases hr : s.realtime = true <;> simp [hr]

theorem step_suiteStart_inv (s s' : ReporterState) (su : SuiteInfo)
    (h : step s (Event.suiteStart su) = some s') :
    ∃ m d, mget s.suiteIndents su.cid = some m ∧
      mget s.indents su.cid = some d ∧
      s'.indents = mupd s.indents su.cid (d + 1) ∧
      s'.suiteIndents = mupd s.suiteIndents su.cid (mupd m su.uid (d + 1)) ∧
      s'.results = s.results ∧ s'.specs = s.specs ∧
      s'.realtime = s.realtime ∧ s'.baseReporter = s.baseReporter ∧
      s'.errorCount = s.errorCount := by
  cases hm : mget s.suiteIndents su.cid with
  | none => simp [step, hm] at h
  | some m =>
    cases hd : mget s.indents su.cid with
    | none => simp [step, hm, hd] at h
    | some d =>
      refine ⟨m, d, rfl, rfl, ?_⟩
      simp only [step, hm, hd] at h
      by_cases hr : s.realtime = true
      · rw [if_pos hr] at h
        obtain ⟨hcore, hec⟩ := suiteStartRealtime_frame _ su s' h
        rw [hcore.2.1, hcore.2.2.1, hcore.2.2.2.2.1, hcore.2.2.2.1,
          hcore.2.2.2.2.2, hcore.1, hec]
        exact ⟨rfl, rfl, rfl, rfl, rfl, rfl, rfl⟩
      · rw [if_neg hr, Option.some.injEq] at h
        subst h
        exact ⟨rfl, rfl, rfl, rfl, rfl, rfl, rfl⟩

theorem step_testPass_inv (s s' : ReporterState) (t : TestInfo)
    (h : step s (Event.testPass t) = some s') :
    ∃ r0, mget s.results t.cid = some r0 ∧
      s'.results = mupd s.results t.cid { r0 with passing := r0.passing + 1 } ∧
      s'.indents = s.indents ∧ s'.suiteIndents = s.suiteIndents ∧
      s'.specs = s.specs ∧ s'.realtime = s.realtime ∧
      s'.baseReporter = s.baseReporter := by
  cases hm : mget s.results t.cid with
  | none => simp [step, bumpResults, hm] at h
  | some r0 =>
    refine ⟨r0, rfl, ?_⟩
    simp only [step, bumpResults, hm, Option.some_bind'] at h
    by_cases hr : s.realtime = true
    · rw [if_pos hr] at h
      obtain ⟨hcore, _⟩ := testRealtime_frame _ "pass" t s' h
      rw [hcore.2.2.2.2.1, hcore.2.1, hcore.2.2.1, hcore.2.2.2.1,
        hcore.2.2.2.2.2, hcore.1]
      exact ⟨rfl, rfl, rfl, rfl, rfl, rfl⟩
    · rw [if_neg hr, Option.some.injEq] at h
      subst h
      exact ⟨rfl, rfl, rfl, rfl, rfl, rfl⟩

theorem step_testPending_inv (s s' : ReporterState) (t : TestInfo)
    (h : step s (Event.testPending t) = some s') :
    ∃ r0, mget s.results t.cid = some r0 ∧
      s'.results = mupd s.results t.cid { r0 with pending := r0.pending + 1 } ∧
      s'.indents = s.indents ∧ s'.suiteIndents = s.suiteIndents ∧
      s'.specs = s.specs ∧ s'.realtime = s.realtime ∧
      s'.baseReporter = s.baseReporter := by
  cases hm : mget s.results t.cid with
  | none => simp [step, bumpResults, hm] at h
  | some r0 =>
    refine ⟨r0, rfl, ?_⟩
    simp only [step, bumpResults, hm, Option.some_bind'] at h
    by_cases hr : s.realtime = true
    · rw [if_pos hr] at h
      obtain ⟨hcore, _⟩ := testRealtime_frame _ "pending" t s' h
      rw [hcore.2.2.2.2.1, hcore.2.1, hcore.2.2.1, hcore.2.2.2.1,
        hcore.2.2.2.2.2, hcore.1]
      exact ⟨rfl, rfl, rfl, rfl, rfl, rfl⟩
    · rw [if_neg hr, Option.some.injEq] at h
      subst h
      exact ⟨rfl, rfl, rfl, rfl, rfl, rfl⟩

theorem step_testFail_inv (s s' : ReporterState) (t : TestInfo)
    (h : step s (Event.testFail t) = some s') :
    ∃ r0, mget s.results t.cid = some r0 ∧
      s'.results = mupd s.results t.cid { r0 with failing := r0.failing + 1 } ∧
      s'.indents = s.indents ∧ s'.suiteIndents = s.suiteIndents ∧
      s'.specs = s.specs ∧ s'.realtime = s.realtime ∧
      s'.baseReporter = s.baseReporter := by
  cases hm : mget s.results t.cid with
  | none => simp [step, bumpResults, hm] at h
  | some r0 =>
    refine ⟨r0, rfl, ?_⟩
    simp only [step, bumpResults, hm, Option.some_bind'] at h
    by_cases hr : s.realtime = true
    · rw [if_pos hr] at h
      obtain ⟨hcore, _⟩ := testRealtime_frame _ "fail" t s' h
      rw [hcore.2.2.2.2.1, hcore.2.1, hcore.2.2.1, hcore.2.2.2.1,
        hcore.2.2.2.2.2, hcore.1]
      exact ⟨rfl, rfl, rfl, rfl, rfl, rfl⟩
    · rw [if_neg hr, Option.some.injEq] at h
      subst h
      exact ⟨rfl, rfl, rfl, rfl, rfl, rfl⟩

theorem step_suiteEnd_inv (s s' : ReporterState) (su : SuiteInfo)
    (h : step s (Event.suiteEnd su) = some s') :
    ∃ d, mget s.indents su.cid = some d ∧
      s'.indents = mupd s.indents su.cid (d - 1) ∧
      s'.suiteIndents = s.suiteIndents ∧ s'.results = s.results ∧
      s'.specs = s.specs ∧ s'.realtime = s.realtime ∧
      s'.baseReporter = s.baseReporter ∧ s'.errorCount = s.errorCount := by
  cases hd : mget s.indents su.cid with
  | none => simp [step, hd] at h
  | some d =>
    refine ⟨d, rfl, ?_⟩
    simp only [step, hd, Option.some.injEq] at h
    subst h
    by_cases hr : s.realtime = true <;> simp [hr]

theorem step_runnerEnd_inv (s s' : ReporterState) (r : RunnerInfo)
    (h : step s (Event.runnerEnd r) = some s') :
    s'.indents = s.indents ∧ s'.suiteIndents = s.suiteIndents ∧
    s'.results = s.results ∧ s'.specs = s.specs ∧
    s'.realtime = s.realtime ∧ s'.baseReporter = s.baseReporter := by
  by_cases hr : s.realtime = true
  · cases hm : mget s.baseReporter.stats.runners r.cid with
    | none => simp [step, hr, hm] at h
    | some results =>
      cases hcr : s.context.runner with
      | none => simp [step, hr, hm, hcr] at h
      | some ctxRunner =>
        cases hsp : mget results.specs
            (s.baseReporter.stats.specHash ctxRunner.cid) with
        | none => simp [step, hr, hm, hcr, hsp] at h
        | some spec =>
          simp only [step, hr, if_true, hm, hcr, hsp, Option.some.injEq] at h
          subst h
          exact ⟨rfl, rfl, rfl, rfl, rfl, rfl⟩
  · simp only [step] at h
    rw [if_neg hr, Option.map_eq_some'] at h
    obtain ⟨p, hgs, hp⟩ := h
    cases hp
    have hc := getSuiteResult_frame s r p hgs
    exact ⟨hc.2.1, hc.2.2.1, hc.2.2.2.2.1, hc.2.2.2.1, hc.2.2.2.2.2, hc.1⟩

theorem step_terminal_inv (s s' : ReporterState)
    (h : step s Event.terminal = some s') : s' = s := by
  simp only [step, Option.some.injEq] at h
  exact h.symm

/-- Concrete desktop capabilities for witness states. -/
def cCaps : Caps :=
  { Caps.empty with
    browserName := some "chrome"
    version := some "100"
    platform := some "Windows" }

/-- Concrete stats collaborator with a single worker record. -/
def cStats : Stats :=
  { runners := [("0-0",
      { capabilities := cCaps
        sessionID := "sess-1"
        specs := [("0-0",
          { suites := [("suite-a",
              { title := "my suite"
                tests := [("t2", { title := "sibling", state := "pass" })] })]
            duration := 90000 })]
        configHost := none })]
    failures := []
    specHash := fun c => c }

/-- Concrete base reporter used by witness states: the identity color theme,
an ok glyph and a fixed humanizer output. -/
def cBase : Base :=
  { stats := cStats, symbolOk := "OK", color := fun _ t => t,
    humanize := fun _ => "1m30s" }

/-- Concrete base reporter whose stats saw zero runners. -/
def cBase0 : Base :=
  { stats := { runners := [], failures := [], specHash := fun c => c },
    symbolOk := "OK", color := fun _ t => t, humanize := fun _ => "1m30s" }

theorem indentOf_coe (d : Nat) :
    indentOf (some (d : Int)) =
      some (String.join (List.replicate (d - 1) "    ")) := by
  rcases d with _ | n
  · rfl
  · show (if (((n + 1 : Nat)) : Int) = 0 then some ""
      else jsArrayJoin (((n + 1 : Nat)) : Int) "    ") = _
    have h1 : ¬((((n + 1 : Nat)) : Int) = 0) := by omega
    have h2 : ¬((((n + 1 : Nat)) : Int) < 0) := by omega
    have h3 : ((((n + 1 : Nat)) : Int)).toNat - 1 = n := by omega
    rw [if_neg h1]
    unfold jsArrayJoin
    rw [if_neg h2, h3]
    simp

/-- Claim C3: for every worker id and suite id whose recorded depth is the
natural number d, the indent method renders exactly d - 1 four-space units,
and depth 0 or 1 renders the empty string. -/
theorem c3_renderIndent (sI : List (String × List (String × Int)))
    (cid uid : String) (m : List (String × Int)) (d : Nat)
    (h1 : mget sI cid = some m) (h2 : mget m uid = some (d : Int)) :
    indent sI cid uid = some (String.join (List.replicate (d - 1) "    ")) ∧
    ((d = 0 ∨ d = 1) → indent sI cid uid = some "") := by
  have hmain : indent sI cid uid =
      some (String.join (List.replicate (d - 1) "    ")) := by
    simp only [indent, h1]
    rw [h2, indentOf_coe]
  refine ⟨hmain, fun hd => ?_⟩
  rcases hd with hd | hd <;> subst hd <;> simpa using hmain

/-- Concrete depth map for the claim C3 witness. -/
def c3map : List (String × Int) := [("suite-1", (3 : Int))]

/-- Concrete suite-indent store for the claim C3 witness. -/
def c3sI : List (String × List (String × Int)) := [("0-0", c3map)]

/-- Witness for claim C3 at depth 3: two four-space units. -/
theorem c3_renderIndent_witness :
    mget c3sI "0-0" = some c3map ∧
    mget c3map "suite-1" = some ((3 : Nat) : Int) ∧
    indent c3sI "0-0" "suite-1" = some "        " :=
  ⟨rfl, by decide,
    by simpa using (c3_renderIndent c3sI "0-0" "suite-1" c3map 3 rfl (by decide)).1⟩

/-- Iterated calls of getSymbol, returning the glyph of every call in order
together with the final error counter. -/
def symbolCalls (base : Base) (ec : Nat) : List String → List String × Nat
  | [] => ([], ec)
  | st :: rest =>
    let p := getSymbol base ec st
    let q := symbolCalls base p.2 rest
    (p.1 :: q.1, q.2)

theorem getSymbol_fail (base : Base) (ec : Nat) :
    getSymbol base ec "fail" = (toString (ec + 1) ++ ")", ec + 1) := by
  simp [getSymbol]

theorem symbolCalls_fail (base : Base) :
    ∀ (k ec : Nat),
    symbolCalls base ec (List.replicate k "fail") =
      ((List.range k).map fun i => toString (ec + i + 1) ++ ")", ec + k)
  | 0, ec => by simp [symbolCalls]
  | k + 1, ec => by
    rw [List.replicate_succ]
    simp only [symbolCalls, getSymbol_fail, symbolCalls_fail base k (ec + 1),
      List.range_succ_eq_map, List.map_cons, List.map_map]
    refine Prod.ext ?_ ?_
    · simp only [Nat.add_zero, Function.comp]
      congr 1
      apply List.map_congr_left
      intro i _
      congr 2
      omega
    · simp only
      omega

/-- Claim C4: from a freshly reset error counter, k successive fail calls of
getSymbol produce the glyphs 1) through k) and leave the counter at k, while
pass, pending and unknown states never change the counter. -/
theorem c4_failSymbols :
    (∀ (base : Base) (k : Nat),
      symbolCalls base 0 (List.replicate k "fail") =
        ((List.range k).map fun i => toString (i + 1) ++ ")", k)) ∧
    (∀ (base : Base) (ec : Nat) (st : String), st ≠ "fail" →
      (getSymbol base ec st).2 = ec) := by
  constructor
  · intro base k
    simpa using symbolCalls_fail base k 0
  · intro base ec st hne
    unfold getSymbol
    by_cases h1 : st = "pass"
    · simp [h1]
    · by_cases h2 : st = "pending"
      · simp [h1, h2]
      · simp [h1, h2, hne]

/-- Witness for claim C4: three fail calls from zero, and a pass call that
leaves the counter at 5. -/
theorem c4_failSymbols_witness :
    symbolCalls cBase 0 (List.replicate 3 "fail") = (["1)", "2)", "3)"], 3) ∧
    ("pass" ≠ "fail" ∧ (getSymbol cBase 5 "pass").2 = 5) :=
  ⟨by simpa using c4_failSymbols.1 cBase 3,
   ⟨by decide, c4_failSymbols.2 cBase 5 "pass" (by decide)⟩⟩

/-- The mobile capability record of claim C7. -/
def c7caps : Caps :=
  { Caps.empty with
    deviceName := some "iPhone"
    os := some "iOS"
    os_version := some "15"
    browserName := some "Safari" }

/-- Counterexample to claim C7: the missing version field does not degrade
to an empty substring, so the verbose descriptor is not the double-spaced
string the claim asserts. -/
theorem c7_combo_counterexample :
    getBrowserCombo c7caps true ≠ "iPhone on iOS 15  executing Safari" := by
  decide

/-- Claim C7 amended: with no version field, the JS template literal
interpolates undefined as literal text, giving the descriptor with the word
undefined in the version slot. -/
theorem c7_combo_amended :
    getBrowserCombo c7caps true =
      "iPhone on iOS 15 undefined executing Safari" := by
  decide

/-- A reporter state whose stats saw zero runners, for claim C8. -/
def c8S : ReporterState := initState cBase0 none

/-- Counterexample to claim C8: with zero workers the cross-worker summary is
still emitted, because only a count of exactly one suppresses it. -/
theorem c8_summary_counterexample :
    (printSuitesSummary c8S).isSome = true ∧
    c8S.baseReporter.stats.runners.length = 0 :=
  ⟨rfl, rfl⟩

/-- Claim C8 amended: the cross-worker summary is emitted exactly when the
number of workers differs from one (including zero), and then reports that
number. -/
theorem c8_summary_amended (s : ReporterState) :
    ((printSuitesSummary s).isSome ↔
      s.baseReporter.stats.runners.length ≠ 1) ∧
    printSuitesSummary s =
      (if s.baseReporter.stats.runners.length = 1 then none
       else some (getSuitesSummary s.baseReporter.stats.runners.length)) := by
  unfold printSuitesSummary
  by_cases h : s.baseReporter.stats.runners.length = 1 <;> simp [h]

/-- Concatenation of a list of strings, used to state the summary shape. -/
def joinAll : List String → String
  | [] => ""
  | x :: rest => x ++ joinAll rest

theorem str_append_empty (s : String) : s ++ "" = s := by
  cases s with
  | mk l =>
    show String.mk (l ++ []) = String.mk l
    rw [List.append_nil]

/-- One summary line as the spec describes it: preface, colorized count,
colorized state name, and the duration suffix exactly when the flag is
set. -/
def summaryLine (base : Base) (preface : String) (duration : Nat)
    (withDuration : Bool) (p : String × Nat) : String :=
  preface ++ " " ++ base.color (getColor p.1) (toString p.2) ++ " "
    ++ base.color (getColor p.1) p.1
    ++ (if withDuration then " (" ++ base.humanize duration ++ ")" else "")
    ++ "\n"

/-- The summary text the spec describes, on an already-filtered state list:
the first line carries the duration suffix, the rest do not. -/
def summarySpecOf (base : Base) (preface : String) (duration : Nat) :
    List (String × Nat) → String
  | [] => ""
  | x :: rest =>
    summaryLine base preface duration true x
      ++ joinAll (rest.map (summaryLine base preface duration false))

/-- The summary text the spec describes: drop the zero-count states, keep
the given order, put the duration suffix on the first remaining line only. -/
def summarySpecText (base : Base) (preface : String) (duration : Nat)
    (l : List (String × Nat)) : String :=
  summarySpecOf base preface duration (l.filter fun p => p.2 != 0)

theorem getSummaryAux_true_eq (base : Base) (preface : String) (duration : Nat) :
    ∀ l, getSummaryAux base preface duration l true =
      joinAll ((l.filter fun p => p.2 != 0).map
        (summaryLine base preface duration false))
  | [] => rfl
  | (st, c) :: rest => by
    by_cases h : c = 0
    · simp [getSummaryAux, List.filter_cons, h,
        getSummaryAux_true_eq base preface duration rest]
    · simp [getSummaryAux, List.filter_cons, h, summaryLine, joinAll,
        getSummaryAux_true_eq base preface duration rest]

theorem getSummaryAux_false_eq (base : Base) (preface : String) (duration : Nat) :
    ∀ l, getSummaryAux base preface duration l false =
      summarySpecText base preface duration l
  | [] => rfl
  | (st, c) :: rest => by
    by_cases h : c = 0
    · subst h
      simp [getSummaryAux, summarySpecText, List.filter_cons,
        getSummaryAux_false_eq base preface duration rest]
    · simp [getSummaryAux, summarySpecText, summarySpecOf, List.filter_cons,
        h, summaryLine, getSummaryAux_true_eq base preface duration rest]

/-- Claim C5: the summary block renders one line per non-zero counter, in
the fixed order passing, pending, failing, skipping zero counts, with the
humanized duration suffix on exactly the first rendered line; in particular
counters 3 passing, 0 pending, 1 failing give exactly the passing line with
the suffix followed by the failing line without it. -/
theorem c5_summary (base : Base) (states : Results) (duration : Nat)
    (preface : String) :
    getSummary base states duration preface =
      summarySpecText base preface duration (resultsList states) ∧
    getSummary base ⟨3, 0, 1⟩ duration preface =
      summaryLine base preface duration true ("passing", 3)
        ++ summaryLine base preface duration false ("failing", 1) := by
  constructor
  · exact getSummaryAux_false_eq base preface duration (resultsList states)
  · show getSummaryAux base preface duration (resultsList ⟨3, 0, 1⟩) false = _
    rw [getSummaryAux_false_eq base preface duration (resultsList ⟨3, 0, 1⟩)]
    show summarySpecOf base preface duration
      ((resultsList ⟨3, 0, 1⟩).filter fun p => p.2 != 0) = _
    have hf : (resultsList ⟨3, 0, 1⟩).filter (fun p => p.2 != 0) =
        [("passing", 3), ("failing", 1)] := by decide
    rw [hf]
    show summaryLine base preface duration true ("passing", 3)
      ++ (summaryLine base preface duration false ("failing", 1) ++ "") = _
    rw [str_append_empty]

/-- Concrete batched-mode reporter state for the claim C6 counterexample:
worker 0-0 with both suites recorded at depth 1. -/
def c6S : ReporterState :=
  { baseReporter := cBase
    errorCount := 0
    indents := [("0-0", 2)]
    suiteIndents := [("0-0",
      [("\"before all\" hook", (1 : Int)), ("suite-a", (1 : Int))])]
    specs := []
    results := []
    context := Context.empty
    realtime := false }

/-- Suite list for the claim C6 counterexample: a before-all-marked suite
that contains a completed test t1, followed by an unmarked sibling. -/
def c6Suites : List (String × SuiteRec) :=
  [("\"before all\" hook",
    { title := "\"before all\" hook"
      tests := [("t1", { title := "t1", state := "pass" })] }),
   ("suite-a",
    { title := "my suite"
      tests := [("t2", { title := "sibling", state := "fail" })] })]

/-- Counterexample to claim C6: the before-all-marked suite contains a test
with a completed state, yet neither its header nor that test appears in the
rendered listing, while the sibling suite's test does appear: the continue
at the top of the loop skips the marked suite entirely. -/
theorem c6_beforeAll_counterexample :
    (mget c6Suites "\"before all\" hook").map
        (fun su => su.tests.map fun t => t.2.state) = some ["pass"] ∧
    (getResultList c6S "0-0" "" c6Suites).map
        (fun p => (strContains p.1 "t1", strContains p.1 "sibling"))
      = some (false, true) := by
  exact ⟨rfl, by decide⟩

/-- Claim C6 amended: a suite whose identifier begins with the before-all
marker is skipped entirely, its header line, its child tests and its
trailing preface line included; the rendered listing equals that of the
suite list with all marked suites removed, so unmarked siblings are
rendered in full. -/
theorem c6_beforeAll_amended (s : ReporterState) (cid preface : String)
    (suites : List (String × SuiteRec)) :
    getResultList s cid preface suites =
      getResultList s cid preface
        (suites.filter fun p => !(strStartsWith p.1 "\"before all\"")) := by
  induction suites generalizing s with
  | nil => rfl
  | cons hd rest ih =>
    obtain ⟨specUid, spec⟩ := hd
    by_cases hba : strStartsWith specUid "\"before all\"" = true
    · simp [getResultList, List.filter_cons, hba, ih]
    · simp only [List.filter_cons, hba, Bool.not_false, if_pos]
      simp only [getResultList, hba, Bool.false_eq_true, if_false]
      cases hi : indent s.suiteIndents cid specUid with
      | none => rfl
      | some ind =>
        cases htl : getTestLines s cid specUid preface spec.tests with
        | none => rfl
        | some q => simp [ih q.2]

/-- Fresh batched-mode reporter state over the one-worker stats, for claim
C9. -/
def c9S : ReporterState := initState cBase none

/-- The runner payload of claim C9. -/
def c9R : RunnerInfo := { cid := "0-0", specs := ["a.js"] }

/-- Counterexample to claim C9: building the worker header text is not
side-effect-free: it overwrites the real-time context's cid field (and its
preface), so the reporter's mutable state does not stay unchanged. -/
theorem c9_getHeader_counterexample :
    c9S.context.cid = none ∧
    (getHeader c9S c9R).map (fun p => p.2.context.cid) = some (some "0-0") :=
  ⟨rfl, rfl⟩

/-- Claim C9 amended: building the worker header text mutates exactly the
context's cid and preface fields, setting them to the runner id and the
bracketed preface label; every other reporter field, the error counter
included, is left unchanged. -/
theorem c9_getHeader_amended (s : ReporterState) (r : RunnerInfo)
    (p : String × ReporterState) (h : getHeader s r = some p) :
    p.2.errorCount = s.errorCount ∧ p.2.indents = s.indents ∧
    p.2.suiteIndents = s.suiteIndents ∧ p.2.specs = s.specs ∧
    p.2.results = s.results ∧ p.2.realtime = s.realtime ∧
    p.2.baseReporter = s.baseReporter ∧
    p.2.context.runner = s.context.runner ∧
    p.2.context.suite = s.context.suite ∧
    p.2.context.headerPrinted = s.context.headerPrinted ∧
    p.2.context.cid = some r.cid ∧
    (∃ rs, mget s.baseReporter.stats.runners r.cid = some rs ∧
      p.2.context.preface = some ("[" ++ getBrowserCombo rs.capabilities false
        ++ " #" ++ r.cid ++ "]")) := by
  obtain ⟨rs, hm, hcore, hec, hctx⟩ := getHeader_frame s r p h
  exact ⟨hec, hcore.2.1, hcore.2.2.1, hcore.2.2.2.1, hcore.2.2.2.2.1,
    hcore.2.2.2.2.2, hcore.1, by rw [hctx], by rw [hctx], by rw [hctx],
    by rw [hctx], rs, hm, by rw [hctx]⟩

/-- The header result of applying getHeader to the concrete claim C9
state. -/
def c9P : String × ReporterState := (getHeader c9S c9R).getD ("", c9S)

/-- Witness for claim C9 amended at the concrete state: the results map is
untouched by getHeader. -/
theorem c9_getHeader_amended_witness :
    getHeader c9S c9R = some c9P ∧ c9P.2.results = c9S.results :=
  ⟨rfl, (c9_getHeader_amended c9S c9R c9P rfl).2.2.2.2.1⟩

/-- Claim C10: the realtime flag is true exactly when a configuration object
is present and its maxInstances strictly equals one, and no event handler
ever changes the flag. -/
theorem c10_realtime :
    (∀ cfg : Option JsConfig, mkRealtime cfg = true ↔
      ∃ c, cfg = some c ∧ c.maxInstances = some 1) ∧
    (∀ (s s' : ReporterState) (e : Event), step s e = some s' →
      s'.realtime = s.realtime) := by
  constructor
  · intro cfg
    cases cfg with
    | none => simp [mkRealtime]
    | some c => simp [mkRealtime]
  · intro s s' e h
    cases e with
    | runnerStart r => exact (step_runnerStart_inv s s' r h).2.2.2.2.1
    | suiteStart su =>
      obtain ⟨m, d, _, _, _, _, _, _, hr, _, _⟩ := step_suiteStart_inv s s' su h
      exact hr
    | testPending t =>
      obtain ⟨r0, _, _, _, _, _, hr, _⟩ := step_testPending_inv s s' t h
      exact hr
    | testPass t =>
      obtain ⟨r0, _, _, _, _, _, hr, _⟩ := step_testPass_inv s s' t h
      exact hr
    | testFail t =>
      obtain ⟨r0, _, _, _, _, _, hr, _⟩ := step_testFail_inv s s' t h
      exact hr
    | suiteEnd su =>
      obtain ⟨d, _, _, _, _, _, hr, _, _⟩ := step_suiteEnd_inv s s' su h
      exact hr
    | runnerEnd r => exact (step_runnerEnd_inv s s' r h).2.2.2.2.1
    | terminal => rw [step_terminal_inv s s' h]

/-- A realtime-configured reporter state for the claim C10 witness. -/
def c10S : ReporterState := initState cBase (some { maxInstances := some 1 })

/-- The runner payload of the claim C10 witness. -/
def c10R : RunnerInfo := { cid := "0-0", specs := ["a.js"] }

/-- The state after the runner:start handler in the claim C10 witness. -/
def c10S2 : ReporterState := (step c10S (Event.runnerStart c10R)).getD c10S

/-- Witness for claim C10: the constructed flag is true at maxInstances one,
and stepping runner:start leaves it unchanged. -/
theorem c10_realtime_witness :
    mkRealtime (some { maxInstances := some 1 }) = true ∧
    step c10S (Event.runnerStart c10R) = some c10S2 ∧
    c10S2.realtime = c10S.realtime :=
  ⟨rfl, rfl, c10_realtime.2 c10S c10S2 (Event.runnerStart c10R) rfl⟩

/-- Test events addressed to the given worker: exactly the three test event
kinds carrying that worker id. -/
def isTestEventFor (cid : String) : Event → Bool
  | .testPending t => t.cid == cid
  | .testPass t => t.cid == cid
  | .testFail t => t.cid == cid
  | _ => false

/-- Number of test:pass events for the given worker. -/
def countPass (cid : String) (es : List Event) : Nat :=
  es.countP fun e =>
    match e with
    | .testPass t => t.cid == cid
    | _ => false

/-- Number of test:pending events for the given worker. -/
def countPending (cid : String) (es : List Event) : Nat :=
  es.countP fun e =>
    match e with
    | .testPending t => t.cid == cid
    | _ => false

/-- Number of test:fail events for the given worker. -/
def countFail (cid : String) (es : List Event) : Nat :=
  es.countP fun e =>
    match e with
    | .testFail t => t.cid == cid
    | _ => false

theorem c1_aux (cid : String) :
    ∀ (es : List Event) (s s' : ReporterState) (r : Results),
    (∀ e ∈ es, isTestEventFor cid e = true) →
    run s es = some s' → mget s.results cid = some r →
    mget s'.results cid = some
      ⟨r.passing + countPass cid es, r.pending + countPending cid es,
       r.failing + countFail cid es⟩ := by
  intro es
  induction es with
  | nil =>
    intro s s' r _ hrun hr
    simp only [run, Option.some.injEq] at hrun
    subst hrun
    simpa [countPass, countPending, countFail] using hr
  | cons e es ih =>
    intro s s' r hall hrun hr
    simp only [run] at hrun
    rw [Option.bind_eq_some] at hrun
    obtain ⟨s2, hstep, hrun2⟩ := hrun
    have he := hall e (List.mem_cons_self e es)
    have hall2 : ∀ e2 ∈ es, isTestEventFor cid e2 = true :=
      fun e2 h2 => hall e2 (List.mem_cons_of_mem e h2)
    cases e with
    | testPass t =>
      have hcid : t.cid = cid := by simpa [isTestEventFor] using he
      obtain ⟨r0, hr0, hres, _⟩ := step_testPass_inv s s2 t hstep
      rw [hcid] at hr0 hres
      rw [hr] at hr0
      injection hr0 with hr0
      subst hr0
      have h2 : mget s2.results cid =
          some { r with passing := r.passing + 1 } := by
        rw [hres]
        exact mget_mupd_self _ _ _
      have h3 := ih s2 s' _ hall2 hrun2 h2
      rw [h3]
      simp only [Option.some.injEq, Results.mk.injEq,
        countPass, countPending, countFail, List.countP_cons, hcid]
      refine ⟨?_, ?_, ?_⟩ <;> simp <;> omega
    | testPending t =>
      have hcid : t.cid = cid := by simpa [isTestEventFor] using he
      obtain ⟨r0, hr0, hres, _⟩ := step_testPending_inv s s2 t hstep
      rw [hcid] at hr0 hres
      rw [hr] at hr0
      injection hr0 with hr0
      subst hr0
      have h2 : mget s2.results cid =
          some { r with pending := r.pending + 1 } := by
        rw [hres]
        exact mget_mupd_self _ _ _
      have h3 := ih s2 s' _ hall2 hrun2 h2
      rw [h3]
      simp only [Option.some.injEq, Results.mk.injEq,
        countPass, countPending, countFail, List.countP_cons, hcid]
      refine ⟨?_, ?_, ?_⟩ <;> simp <;> omega
    | testFail t =>
      have hcid : t.cid = cid := by simpa [isTestEventFor] using he
      obtain ⟨r0, hr0, hres, _⟩ := step_testFail_inv s s2 t hstep
      rw [hcid] at hr0 hres
      rw [hr] at hr0
      injection hr0 with hr0
      subst hr0
      have h2 : mget s2.results cid =
          some { r with failing := r.failing + 1 } := by
        rw [hres]
        exact mget_mupd_self _ _ _
      have h3 := ih s2 s' _ hall2 hrun2 h2
      rw [h3]
      simp only [Option.some.injEq, Results.mk.injEq,
        countPass, countPending, countFail, List.countP_cons, hcid]
      refine ⟨?_, ?_, ?_⟩ <;> simp <;> omega
    | runnerStart r2 => simp [isTestEventFor] at he
    | suiteStart su => simp [isTestEventFor] at he
    | suiteEnd su => simp [isTestEventFor] at he
    | runnerEnd r2 => simp [isTestEventFor] at he
    | terminal => simp [isTestEventFor] at he

/-- Claim C1: after runner:start for a worker followed by any interleaving
of that worker's test events, the worker's final results record counts
exactly the test:pass, test:pending and test:fail events observed. -/
theorem c1_counters (s0 s1 : ReporterState) (r : RunnerInfo) (es : List Event)
    (hall : ∀ e ∈ es, isTestEventFor r.cid e = true)
    (hrun : run s0 (Event.runnerStart r :: es) = some s1) :
    mget s1.results r.cid = some
      ⟨countPass r.cid es, countPending r.cid es, countFail r.cid es⟩ := by
  simp only [run] at hrun
  rw [Option.bind_eq_some] at hrun
  obtain ⟨s2, hstep, hrun2⟩ := hrun
  have h0 := (step_runnerStart_inv s0 s2 r hstep).1
  have hr : mget s2.results r.cid = some ⟨0, 0, 0⟩ := by
    rw [h0]
    exact mget_mupd_self _ _ _
  simpa using c1_aux r.cid es s2 s1 ⟨0, 0, 0⟩ hall hrun2 hr

/-- Fresh batched-mode state for the claim C1 witness. -/
def c1S0 : ReporterState := initState cBase none

/-- The runner payload of the claim C1 witness. -/
def c1R : RunnerInfo := { cid := "0-0", specs := ["a.js"] }

/-- The test events of the claim C1 witness: two passes, a fail and a
pending, all for worker 0-0. -/
def c1Es : List Event :=
  [Event.testPass { cid := "0-0", title := "x" },
   Event.testPass { cid := "0-0", title := "y" },
   Event.testFail { cid := "0-0", title := "z" },
   Event.testPending { cid := "0-0", title := "w" }]

/-- The final state of the claim C1 witness run. -/
def c1S1 : ReporterState :=
  (run c1S0 (Event.runnerStart c1R :: c1Es)).getD c1S0

/-- Witness for claim C1: the concrete run ends with counters 2, 1, 1. -/
theorem c1_counters_witness :
    (∀ e ∈ c1Es, isTestEventFor c1R.cid e = true) ∧
    run c1S0 (Event.runnerStart c1R :: c1Es) = some c1S1 ∧
    mget c1S1.results "0-0" = some ⟨2, 1, 1⟩ :=
  ⟨by decide, rfl, c1_counters c1S0 c1S1 c1R c1Es (by decide) rfl⟩

/-- Events that write the stored depth of the given worker and suite: a
suite:start for exactly that pair, or a runner:start for that worker (which
resets the whole map). All other events, suite:end included, leave every
stored depth untouched. -/
def writesDepth (cid uid : String) : Event → Bool
  | .suiteStart su => su.cid == cid && su.uid == uid
  | .runnerStart r => r.cid == cid
  | _ => false

/-- The stored depth of one suite of one worker. -/
def depthOf (s : ReporterState) (cid uid : String) : Option Int :=
  (mget s.suiteIndents cid).bind fun m => mget m uid

theorem c2_starts_aux (cid : String) :
    ∀ (l : List SuiteInfo) (s s' : ReporterState) (d : Int),
    (∀ su ∈ l, su.cid = cid) →
    run s (l.map Event.suiteStart) = some s' →
    mget s.indents cid = some d →
    mget s'.indents cid = some (d + l.length) := by
  intro l
  induction l with
  | nil =>
    intro s s' d _ hrun hd
    simp only [List.map_nil, run, Option.some.injEq] at hrun
    subst hrun
    simpa using hd
  | cons su rest ih =>
    intro s s' d hall hrun hd
    simp only [List.map_cons, run] at hrun
    rw [Option.bind_eq_some] at hrun
    obtain ⟨s2, hstep, hrun2⟩ := hrun
    have hcid : su.cid = cid := hall su (List.mem_cons_self su rest)
    obtain ⟨m, d0, hm, hd0, hind, _⟩ := step_suiteStart_inv s s2 su hstep
    rw [hcid] at hd0 hind
    rw [hd] at hd0
    injection hd0 with hd0
    subst hd0
    have h2 : mget s2.indents cid = some (d + 1) := by
      rw [hind]
      exact mget_mupd_self _ _ _
    have h3 := ih s2 s' (d + 1)
      (fun su2 hmem => hall su2 (List.mem_cons_of_mem su hmem)) hrun2 h2
    rw [h3]
    congr 1
    simp only [List.length_cons]
    push_cast
    ring

theorem c2_ends_aux (cid : String) :
    ∀ (l : List SuiteInfo) (s s' : ReporterState) (d : Int),
    (∀ su ∈ l, su.cid = cid) →
    run s (l.map Event.suiteEnd) = some s' →
    mget s.indents cid = some d →
    mget s'.indents cid = some (d - l.length) := by
  intro l
  induction l with
  | nil =>
    intro s s' d _ hrun hd
    simp only [List.map_nil, run, Option.some.injEq] at hrun
    subst hrun
    simpa using hd
  | cons su rest ih =>
    intro s s' d hall hrun hd
    simp only [List.map_cons, run] at hrun
    rw [Option.bind_eq_some] at hrun
    obtain ⟨s2, hstep, hrun2⟩ := hrun
    have hcid : su.cid = cid := hall su (List.mem_cons_self su rest)
    obtain ⟨d0, hd0, hind, _⟩ := step_suiteEnd_inv s s2 su hstep
    rw [hcid] at hd0 hind
    rw [hd] at hd0
    injection hd0 with hd0
    subst hd0
    have h2 : mget s2.indents cid = some (d - 1) := by
      rw [hind]
      exact mget_mupd_self _ _ _
    have h3 := ih s2 s' (d - 1)
      (fun su2 hmem => hall su2 (List.mem_cons_of_mem su hmem)) hrun2 h2
    rw [h3]
    congr 1
    simp only [List.length_cons]
    push_cast
    ring

/-- Claim C2: after runner:start and N nested suite:start events the
worker's depth counter is N, and the matching N suite:end events bring it
back to 0 no matter which suite uids they carry, because suite:end only
decrements the per-worker counter; moreover a suite's stored depth is
written only by its own suite:start (or a runner:start reset of its worker)
and is never recomputed by any other event. -/
theorem c2_depth :
    (∀ (s0 s1 s2 : ReporterState) (r : RunnerInfo)
      (starts ends : List SuiteInfo),
      (∀ su ∈ starts, su.cid = r.cid) →
      (∀ su ∈ ends, su.cid = r.cid) →
      ends.length = starts.length →
      run s0 (Event.runnerStart r :: starts.map Event.suiteStart) = some s1 →
      run s1 (ends.map Event.suiteEnd) = some s2 →
      mget s1.indents r.cid = some (starts.length : Int) ∧
      mget s2.indents r.cid = some 0) ∧
    (∀ (s s' : ReporterState) (e : Event) (cid uid : String),
      step s e = some s' → writesDepth cid uid e = false →
      depthOf s' cid uid = depthOf s cid uid) := by
  constructor
  · intro s0 s1 s2 r starts ends hs he hlen hrun1 hrun2
    simp only [run] at hrun1
    rw [Option.bind_eq_some] at hrun1
    obtain ⟨sa, hstep, hrun1⟩ := hrun1
    have h0 : mget sa.indents r.cid = some 0 := by
      rw [(step_runnerStart_inv s0 sa r hstep).2.1]
      exact mget_mupd_self _ _ _
    have h1 := c2_starts_aux r.cid starts sa s1 0 hs hrun1 h0
    rw [zero_add] at h1
    refine ⟨h1, ?_⟩
    have h2 := c2_ends_aux r.cid ends s1 s2 (starts.length : Int) he hrun2 h1
    rw [h2, hlen]
    simp
  · intro s s' e cid uid h hw
    cases e with
    | runnerStart r =>
      have hne : r.cid ≠ cid := by simpa [writesDepth] using hw
      obtain ⟨_, _, hsi, _⟩ := step_runnerStart_inv s s' r h
      unfold depthOf
      rw [hsi, mget_mupd_ne _ _ _ _ (Ne.symm hne)]
    | suiteStart su =>
      obtain ⟨m, d, hm, hd, _, hsi, _⟩ := step_suiteStart_inv s s' su h
      unfold depthOf
      rw [hsi]
      by_cases hc : su.cid = cid
      · have hu : su.uid ≠ uid := by
          intro hu
          simp [writesDepth, hc, hu] at hw
        subst hc
        rw [mget_mupd_self, hm]
        simp only [Option.some_bind']
        rw [mget_mupd_ne _ _ _ _ (Ne.symm hu)]
      · rw [mget_mupd_ne _ _ _ _ (fun h2 => hc h2.symm)]
    | testPending t =>
      obtain ⟨r0, _, _, _, hsi, _⟩ := step_testPending_inv s s' t h
      unfold depthOf
      rw [hsi]
    | testPass t =>
      obtain ⟨r0, _, _, _, hsi, _⟩ := step_testPass_inv s s' t h
      unfold depthOf
      rw [hsi]
    | testFail t =>
      obtain ⟨r0, _, _, _, hsi, _⟩ := step_testFail_inv s s' t h
      unfold depthOf
      rw [hsi]
    | suiteEnd su =>
      obtain ⟨d, _, _, hsi, _⟩ := step_suiteEnd_inv s s' su h
      unfold depthOf
      rw [hsi]
    | runnerEnd r =>
      have hsi := (step_runnerEnd_inv s s' r h).2.1
      unfold depthOf
      rw [hsi]
    | terminal =>
      rw [step_terminal_inv s s' h]

/-- Fresh batched-mode state for the claim C2 witness. -/
def c2S0 : ReporterState := initState cBase none

/-- The runner payload of the claim C2 witness. -/
def c2R : RunnerInfo := { cid := "0-0", specs := ["a.js"] }

/-- Two nested suite:start payloads for the claim C2 witness. -/
def c2Starts : List SuiteInfo :=
  [{ cid := "0-0", uid := "sA", title := "A" },
   { cid := "0-0", uid := "sB", title := "B" }]

/-- Two suite:end payloads for the claim C2 witness, deliberately ending the
outer suite first: the decrement ignores the uid. -/
def c2Ends : List SuiteInfo :=
  [{ cid := "0-0", uid := "sA", title := "A" },
   { cid := "0-0", uid := "sB", title := "B" }]

/-- State after runner:start and the two suite:start events. -/
def c2S1 : ReporterState :=
  (run c2S0 (Event.runnerStart c2R :: c2Starts.map Event.suiteStart)).getD c2S0

/-- State after the two suite:end events. -/
def c2S2 : ReporterState :=
  (run c2S1 (c2Ends.map Event.suiteEnd)).getD c2S1

/-- State after one further test event, for the fixedness conjunct. -/
def c2S3 : ReporterState :=
  (step c2S1 (Event.testPass { cid := "0-0", title := "t" })).getD c2S1

/-- Witness for claim C2: depth 2 after two nested starts, back to 0 after
two out-of-order ends, and the stored depth of suite sA untouched by a test
event. -/
theorem c2_depth_witness :
    run c2S0 (Event.runnerStart c2R :: c2Starts.map Event.suiteStart)
      = some c2S1 ∧
    run c2S1 (c2Ends.map Event.suiteEnd) = some c2S2 ∧
    mget c2S1.indents "0-0" = some 2 ∧
    mget c2S2.indents "0-0" = some 0 ∧
    step c2S1 (Event.testPass { cid := "0-0", title := "t" }) = some c2S3 ∧
    depthOf c2S3 "0-0" "sA" = depthOf c2S1 "0-0" "sA" :=
  ⟨rfl, rfl,
   (c2_depth.1 c2S0 c2S1 c2S2 c2R c2Starts c2Ends (by decide) (by decide)
      (by decide) rfl rfl).1,
   (c2_depth.1 c2S0 c2S1 c2S2 c2R c2Starts c2Ends (by decide) (by decide)
      (by decide) rfl rfl).2,
   rfl,
   c2_depth.2 c2S1 c2S3 (Event.testPass { cid := "0-0", title := "t" })
     "0-0" "sA" rfl (by decide)⟩

end SpecReporter
